import Mathlib

set_option linter.unnecessarySimpa false
set_option linter.unusedVariables false

/-!
Verification development for the RagbotFlat document store and retrieval
engine.  The Python sources (document_map.py, retriever.py, ingest.py,
app.py) are shallowly embedded as executable Lean definitions; external
effects (the remote Walrus blob store, the local filesystem, JSON parsing)
are passed in as explicit environments whose Option results model success
or a caught exception.  Machine floats never influence control flow in the
verified fragment, so document vectors are kept abstract in a type V.
-/

/-! Character-level model of the Python method str.endswith. -/

def pyEndsWith (s suffix : String) : Bool :=
  suffix.data.isSuffixOf s.data

/-- Python list indexing semantics: a non-negative index reads from the
front, a negative index reads from the back, and an out-of-range index
yields none (an IndexError in Python). -/
def pyGet {α : Type} (l : List α) (i : Int) : Option α :=
  if 0 ≤ i then l[i.toNat]?
  else
    let j : Int := (l.length : Int) + i
    if 0 ≤ j then l[j.toNat]? else none

/-! Data model shared by the ingester and the retriever: one metadata
record per ingested document, mirroring the dict literals built in
ingest.py (the local branch stores no blob_id key, modelled as none). -/

structure DocMeta where
  file_path : String
  file_name : String
  source : String
  blob_id : Option String := none
deriving DecidableEq

/-! Document Map (document_map.py).  A Python dict with insertion order is
modelled as an association list with unique keys maintained by the
operations: update-in-place for an existing key, append for a new one. -/

structure DocRecord where
  blob_id : String
  timestamp : String
  metadata : List (String × String)
deriving DecidableEq

/-- Python dict assignment d[k] = v: replace the first binding of k in
place, or append a new binding at the end. -/
def dictInsert : List (String × DocRecord) → String → DocRecord → List (String × DocRecord)
  | [], k, v => [(k, v)]
  | p :: rest, k, v => if p.1 = k then (k, v) :: rest else p :: dictInsert rest k v

/-- Python dict lookup d.get(k): the first binding of k, if any. -/
def dictGet (m : List (String × DocRecord)) (k : String) : Option DocRecord :=
  (m.find? (fun p => p.1 = k)).map Prod.snd

/-- Python del d[k]: drop every binding of k. -/
def dictRemove (m : List (String × DocRecord)) (k : String) : List (String × DocRecord) :=
  m.filter (fun p => p.1 ≠ k)

/-- The persisted backing file of the map: either the raw bytes found at
startup (possibly missing or unparseable) or the last map written by
save_map. -/
inductive MapFile where
  | raw (contents : Option String)
  | saved (m : List (String × DocRecord))
deriving DecidableEq

structure DocumentMapState where
  document_map : List (String × DocRecord)
  file : MapFile

/-- DocumentMap._load_map: read and JSON-parse the backing file, returning
an empty map when the file is missing (FileNotFoundError) or does not
parse (JSONDecodeError).  The JSON decoder is an explicit parameter. -/
def loadMap (contents : Option String)
    (parse : String → Option (List (String × DocRecord))) : List (String × DocRecord) :=
  match contents with
  | none => []
  | some s =>
    match parse s with
    | some m => m
    | none => []

/-- DocumentMap.__init__: load the map from the backing file. -/
def mkDocumentMap (contents : Option String)
    (parse : String → Option (List (String × DocRecord))) : DocumentMapState :=
  { document_map := loadMap contents parse, file := MapFile.raw contents }

/-- DocumentMap.save_map: overwrite the backing file with the whole map. -/
def saveMap (st : DocumentMapState) : DocumentMapState :=
  { st with file := MapFile.saved st.document_map }

/-- DocumentMap.add_document: upsert the record and persist the map. -/
def addDocument (st : DocumentMapState) (filename blob_id now : String)
    (metadata : List (String × String)) : DocumentMapState :=
  saveMap { st with
    document_map := dictInsert st.document_map filename
      { blob_id := blob_id, timestamp := now, metadata := metadata } }

/-- DocumentMap.get_blob_id: the mapped blob id, or none when the filename
is not a key of the map. -/
def getBlobId (st : DocumentMapState) (filename : String) : Option String :=
  match dictGet st.document_map filename with
  | none => none
  | some r => some r.blob_id

/-- DocumentMap.list_documents: all keys of the map. -/
def listDocuments (st : DocumentMapState) : List String :=
  st.document_map.map Prod.fst

/-- DocumentMap.remove_document: delete the record if present and persist;
the Bool reports whether a deletion occurred. -/
def removeDocument (st : DocumentMapState) (filename : String) :
    DocumentMapState × Bool :=
  if st.document_map.any (fun p => p.1 = filename) then
    (saveMap { st with document_map := dictRemove st.document_map filename }, true)
  else
    (st, false)

/-! Lemmas about the dict model. -/

theorem dictGet_insert_self (m : List (String × DocRecord)) (k : String) (v : DocRecord) :
    dictGet (dictInsert m k v) k = some v := by
  induction m with
  | nil => simp [dictInsert, dictGet, List.find?]
  | cons p rest ih =>
    by_cases h : p.1 = k
    · simp [dictInsert, dictGet, h, List.find?]
    · simp only [dictInsert, if_neg h]
      simpa [dictGet, List.find?_cons, h] using ih

theorem dictGet_not_mem (m : List (String × DocRecord)) (k : String)
    (h : k ∉ m.map Prod.fst) : dictGet m k = none := by
  induction m with
  | nil => rfl
  | cons p rest ih =>
    simp only [List.map_cons, List.mem_cons] at h
    push_neg at h
    have h1 : ¬ (p.1 = k) := fun hk => h.1 hk.symm
    have h2 := ih h.2
    simpa [dictGet, List.find?_cons, h1] using h2

theorem dictGet_remove_self (m : List (String × DocRecord)) (k : String) :
    dictGet (dictRemove m k) k = none := by
  induction m with
  | nil => rfl
  | cons p rest ih =>
    by_cases h : p.1 = k
    · simp only [dictRemove, List.filter_cons] at ih ⊢
      simp only [h] at ih ⊢
      simpa using ih
    · simpa [dictRemove, dictGet, List.find?_cons, h] using ih

/-! The append endpoint (app.py, append_to_txt_file).  External effects are
an explicit environment: the Document Map contents, the remote blob store
(retrieve and store, none meaning a raised exception), and the local data
directory (content of DATA_DIR/filename, none meaning the file is absent
or unreadable). -/

structure AppendEnv where
  doc_map : List (String × DocRecord)
  retrieve : String → Option String
  store : String → Option String
  local_read : String → Option String

/-- Observable outcome of one append request: the HTTP status, the storage
tag of a success response, the Document Map afterwards, the content of the
local file afterwards, and the blobs stored remotely during the call. -/
structure AppendOutcome where
  status : Nat
  storage : Option String
  doc_map : List (String × DocRecord)
  local_file : Option String
  stored : List (String × String)
deriving DecidableEq

/-- Metadata dict built for a web append, as in app.py. -/
def appendMetadata (filename now : String) (updated : Bool) : List (String × String) :=
  if updated then
    [("filename", filename), ("content_type", "text/plain"), ("timestamp", now),
     ("updated", "true"), ("source", "web_append")]
  else
    [("filename", filename), ("content_type", "text/plain"), ("timestamp", now),
     ("source", "web_append")]

/-- The except-branch of append_to_txt_file: any exception from the Walrus
tier falls back to appending a newline plus the content to the local file
in append mode, leaving the Document Map untouched; a missing local file
yields 404. -/
def appendFallbackLocal (env : AppendEnv) (filename content : String) : AppendOutcome :=
  match env.local_read filename with
  | none =>
    { status := 404, storage := none, doc_map := env.doc_map,
      local_file := none, stored := [] }
  | some old =>
    { status := 200, storage := some ("local"), doc_map := env.doc_map,
      local_file := some (old ++ "\n" ++ content), stored := [] }

/-- The else-branch of append_to_txt_file: the file is not in the Document
Map, so read the prior content from the local file, store the rewritten
content as a new blob, record it in the map and rewrite the local file. -/
def appendElseBranch (env : AppendEnv) (now filename content : String) : AppendOutcome :=
  match env.local_read filename with
  | none =>
    { status := 404, storage := none, doc_map := env.doc_map,
      local_file := none, stored := [] }
  | some existing =>
    let new_content := existing ++ "\n" ++ content
    match env.store new_content with
    | none => appendFallbackLocal env filename content
    | some new_blob =>
      { status := 200, storage := some ("walrus"),
        doc_map := dictInsert env.doc_map filename
          { blob_id := new_blob, timestamp := now,
            metadata := appendMetadata filename now false },
        local_file := some new_content,
        stored := [(new_blob, new_content)] }

/-- app.py append_to_txt_file.  The Python truthiness test if blob_id
treats both a missing mapping and an empty-string blob id as absent. -/
def appendToTxtFile (env : AppendEnv) (now filename content : String) : AppendOutcome :=
  if filename = "" ∨ content = "" then
    { status := 400, storage := none, doc_map := env.doc_map,
      local_file := env.local_read filename, stored := [] }
  else
    match getBlobId { document_map := env.doc_map, file := MapFile.raw none } filename with
    | some b =>
      if b = "" then
        appendElseBranch env now filename content
      else
        match env.retrieve b with
        | none => appendFallbackLocal env filename content
        | some existing =>
          let new_content := existing ++ "\n" ++ content
          match env.store new_content with
          | none => appendFallbackLocal env filename content
          | some new_blob =>
            { status := 200, storage := some ("walrus"),
              doc_map := dictInsert env.doc_map filename
                { blob_id := new_blob, timestamp := now,
                  metadata := appendMetadata filename now true },
              local_file := some new_content,
              stored := [(new_blob, new_content)] }
    | none => appendElseBranch env now filename content

/-- The prior content an append operation works from: the remote copy when
a truthy blob id maps the filename, the content of the local file
otherwise. -/
def appendPriorContent (env : AppendEnv) (filename : String) : Option String :=
  match getBlobId { document_map := env.doc_map, file := MapFile.raw none } filename with
  | some b => if b = "" then env.local_read filename else env.retrieve b
  | none => env.local_read filename

theorem mem_dictInsert_self_eq (m : List (String × DocRecord)) (k : String) (v r : DocRecord)
    (hnd : (m.map Prod.fst).Nodup) (hmem : (k, r) ∈ dictInsert m k v) : r = v := by
  induction m with
  | nil => simpa [dictInsert] using hmem
  | cons p rest ih =>
    simp only [List.map_cons, List.nodup_cons] at hnd
    by_cases h : p.1 = k
    · simp only [dictInsert, if_pos h] at hmem
      rcases List.mem_cons.mp hmem with h1 | h1
      · exact congrArg Prod.snd h1
      · exfalso
        apply hnd.1
        rw [h]
        exact List.mem_map_of_mem Prod.fst h1
    · simp only [dictInsert, if_neg h] at hmem
      rcases List.mem_cons.mp hmem with h1 | h1
      · exact absurd (congrArg Prod.fst h1.symm) h
      · exact ih hnd.2 h1

/-- Concrete append scenario: the file is mapped to a remote blob whose
content is the single character a, the remote store accepts the new blob,
and the local copy also holds a. -/
def c6Env : AppendEnv :=
  { doc_map := [(("f.txt"), { blob_id := "b0", timestamp := "t0", metadata := [] })],
    retrieve := fun _ => some ("a"),
    store := fun _ => some ("b1"),
    local_read := fun _ => some ("a") }

/-- C6 counterexample: appending b to a document whose prior content is a
stores a blob containing the prior content, a newline, then b, which is not
the plain concatenation of the two strings: the handler inserts a newline
separator between the old and the new content. -/
theorem claim_C6_counterexample :
    (appendToTxtFile c6Env ("t1") ("f.txt") ("b")).stored.map Prod.snd = ["a\nb"] ∧
    ¬ (appendToTxtFile c6Env ("t1") ("f.txt") ("b")).stored.map Prod.snd
        = [("a" : String) ++ ("b")] := by
  constructor
  · decide
  · decide

/-- C6 (amended): for every filename with an existing document, resolved
remote-first, and every appended content, when the remote store succeeds
the handler stores exactly one new blob whose content is the prior content
followed by a newline separator and the appended content, rewrites the
local file with that same full content, and replaces the Document Map
entry for the filename with the new blob id, superseding the prior mapping
entirely so that every remaining binding for the filename carries the new
blob id. -/
theorem claim_C6_append_rewrites (env : AppendEnv) (now filename content p new_blob : String)
    (hnd : (env.doc_map.map Prod.fst).Nodup)
    (hf : filename ≠ "") (hc : content ≠ "")
    (hp : appendPriorContent env filename = some p)
    (hs : env.store (p ++ "\n" ++ content) = some new_blob) :
    (appendToTxtFile env now filename content).stored = [(new_blob, p ++ "\n" ++ content)] ∧
    (appendToTxtFile env now filename content).local_file = some (p ++ "\n" ++ content) ∧
    (dictGet (appendToTxtFile env now filename content).doc_map filename).map DocRecord.blob_id
      = some new_blob ∧
    ∀ r, (filename, r) ∈ (appendToTxtFile env now filename content).doc_map →
      r.blob_id = new_blob := by
  have hifc : ¬ (filename = "" ∨ content = "") := by
    intro h
    rcases h with h | h
    · exact hf h
    · exact hc h
  unfold appendToTxtFile
  rw [if_neg hifc]
  unfold appendPriorContent at hp
  generalize hgb : getBlobId { document_map := env.doc_map, file := MapFile.raw none } filename
    = gb at hp ⊢
  rcases gb with _ | b
  · simp only [appendElseBranch]
    simp at hp
    refine ⟨?_, ?_, ?_, ?_⟩
    · simp [hp, hs]
    · simp [hp, hs]
    · simp [hp, hs, dictGet_insert_self]
    · intro r hr
      simp [hp, hs] at hr
      rw [mem_dictInsert_self_eq env.doc_map filename _ r hnd hr]
  · simp at hp ⊢
    by_cases hb : b = ""
    · subst hb
      simp only [appendElseBranch]
      simp at hp ⊢
      refine ⟨?_, ?_, ?_, ?_⟩
      · simp [hp, hs]
      · simp [hp, hs]
      · simp [hp, hs, dictGet_insert_self]
      · intro r hr
        simp [hp, hs] at hr
        rw [mem_dictInsert_self_eq env.doc_map filename _ r hnd hr]
    · rw [if_neg hb] at hp
      simp only [if_neg hb]
      refine ⟨?_, ?_, ?_, ?_⟩
      · simp [hp, hs]
      · simp [hp, hs]
      · simp [hp, hs, dictGet_insert_self]
      · intro r hr
        simp [hp, hs] at hr
        rw [mem_dictInsert_self_eq env.doc_map filename _ r hnd hr]

/-- C6 witness: the amended theorem evaluated on the concrete scenario. -/
theorem claim_C6_witness :
    (appendToTxtFile c6Env ("t1") ("f.txt") ("b")).stored
      = [(("b1"), ("a" : String) ++ ("\n") ++ ("b"))] ∧
    (appendToTxtFile c6Env ("t1") ("f.txt") ("b")).local_file
      = some (("a" : String) ++ ("\n") ++ ("b")) := by
  have h := claim_C6_append_rewrites c6Env ("t1") ("f.txt") ("b") ("a") ("b1")
    (by decide) (by decide) (by decide) (by decide) rfl
  exact ⟨h.1, h.2.1⟩

/-- C7: after add(f, b, m) the Document Map returns b for f; a filename
never added, or one just removed, yields none rather than raising. -/
theorem claim_C7_docmap_add_get :
    (∀ (st : DocumentMapState) (f b now : String) (m : List (String × String)),
      getBlobId (addDocument st f b now m) f = some b) ∧
    (∀ (st : DocumentMapState) (f : String),
      f ∉ listDocuments st → getBlobId st f = none) ∧
    (∀ (st : DocumentMapState) (f : String),
      getBlobId (removeDocument st f).1 f = none) := by
  refine ⟨?_, ?_, ?_⟩
  · intro st f b now m
    simp [getBlobId, addDocument, saveMap, dictGet_insert_self]
  · intro st f h
    simp only [listDocuments] at h
    simp [getBlobId, dictGet_not_mem st.document_map f h]
  · intro st f
    unfold removeDocument
    by_cases h : st.document_map.any (fun p => p.1 = f)
    · simp only [if_pos h]
      simp [getBlobId, saveMap, dictGet_remove_self]
    · simp only [if_neg h]
      have hnm : f ∉ st.document_map.map Prod.fst := by
        intro hmem
        apply h
        rw [List.any_eq_true]
        rcases List.mem_map.mp hmem with ⟨p, hp1, hp2⟩
        exact ⟨p, hp1, by simp [hp2]⟩
      simp [getBlobId, dictGet_not_mem st.document_map f hnm]

/-- C7 witness: the three statements evaluated on a concrete map. -/
theorem claim_C7_witness :
    getBlobId (addDocument (mkDocumentMap none (fun _ => none)) ("a.txt") ("b1") ("t0") [])
      ("a.txt") = some ("b1") ∧
    getBlobId (mkDocumentMap none (fun _ => none)) ("zzz.txt") = none ∧
    getBlobId (removeDocument (addDocument (mkDocumentMap none (fun _ => none))
      ("a.txt") ("b1") ("t0") []) ("a.txt")).1 ("a.txt") = none := by
  refine ⟨?_, ?_, ?_⟩
  · exact claim_C7_docmap_add_get.1 _ _ _ _ _
  · exact claim_C7_docmap_add_get.2.1 _ _ (by decide)
  · exact claim_C7_docmap_add_get.2.2 _ _

/-- C10: a DocumentMap built over a missing or unparseable backing file is
empty and raises nothing: every lookup returns none, list() is empty, and
the first mutating operation overwrites the backing file with the freshly
built one-entry map. -/
theorem claim_C10_docmap_bad_file (contents : Option String)
    (parse : String → Option (List (String × DocRecord)))
    (hbad : contents = none ∨ ∃ s, contents = some s ∧ parse s = none) :
    (∀ f, getBlobId (mkDocumentMap contents parse) f = none) ∧
    listDocuments (mkDocumentMap contents parse) = [] ∧
    ∀ f b now m,
      (addDocument (mkDocumentMap contents parse) f b now m).file =
        MapFile.saved [(f, { blob_id := b, timestamp := now, metadata := m })] := by
  have hempty : loadMap contents parse = [] := by
    rcases hbad with h | ⟨s, hs1, hs2⟩
    · rw [h]
      rfl
    · simp [loadMap, hs1, hs2]
  refine ⟨?_, ?_, ?_⟩
  · intro f
    simp [getBlobId, mkDocumentMap, hempty, dictGet]
  · simp [listDocuments, mkDocumentMap, hempty]
  · intro f b now m
    simp [addDocument, saveMap, mkDocumentMap, hempty, dictInsert]

/-- C10 witness: a backing file holding unparseable bytes yields the empty
map and the first add overwrites the file with the one-entry map. -/
theorem claim_C10_witness :
    getBlobId (mkDocumentMap (some ("not json")) (fun _ => none)) ("a.txt") = none ∧
    listDocuments (mkDocumentMap (some ("not json")) (fun _ => none)) = [] ∧
    (addDocument (mkDocumentMap (some ("not json")) (fun _ => none))
        ("a.txt") ("b1") ("t0") []).file =
      MapFile.saved [(("a.txt"), { blob_id := "b1", timestamp := "t0", metadata := [] })] := by
  have h := claim_C10_docmap_bad_file (some ("not json")) (fun _ => none)
    (Or.inr ⟨_, rfl, rfl⟩)
  exact ⟨h.1 _, h.2.1, h.2.2 _ _ _ _⟩

/-! Retriever (retriever.py).  The FAISS flat index is modelled by its
number of stored vectors and its search function; document vectors live in
an abstract type V (float contents never influence the verified control
flow).  The fitted vectorizer is a query-to-vector function.  The runtime
environment carries the Document Map lookup, the remote retrieval and the
local filesystem, each returning none on failure or absence. -/

structure FaissIndex (V : Type) where
  ntotal : Nat
  search : V → Nat → List Int

/-- Contract of IndexFlatL2.search: it returns exactly k labels, each of
which is either a valid vector position or the padding label -1, the
latter only when fewer than k vectors are stored. -/
def SearchOk {V : Type} (idx : FaissIndex V) : Prop :=
  ∀ q k, (idx.search q k).length = k ∧
    ∀ i ∈ idx.search q k, (0 ≤ i ∧ i < (idx.ntotal : Int)) ∨ (i = -1 ∧ idx.ntotal < k)

/-- The three retrieval artifacts as held by a DocumentRetriever; none
means the artifact failed to load from every tier. -/
structure RetrieverState (V : Type) where
  index : Option (FaissIndex V)
  vectorizer : Option (String → V)
  document_metadata : Option (List DocMeta)

structure RetrieverEnv where
  doc_map_get : String → Option String
  walrus_retrieve : String → Option String
  local_read : String → Option String

structure RetrievedDoc where
  content : String
  file_name : String
  file_path : String
  source : String
deriving DecidableEq

/-- The local-file fallback inside retrieve_documents: read the path
recorded in the metadata record; a missing or unreadable file contributes
nothing. -/
def localFallbackR (env : RetrieverEnv) (doc_info : DocMeta) : List RetrievedDoc :=
  match env.local_read doc_info.file_path with
  | some content => [{ content := content, file_name := doc_info.file_name,
                       file_path := doc_info.file_path, source := "local" }]
  | none => []

/-- Content resolution for one hit, as coded: look the file name up in the
Document Map; a truthy blob id triggers a remote retrieval whose failure
falls back to the local file; an absent (or empty, hence falsy) blob id
goes straight to the local file. -/
def resolveContent (env : RetrieverEnv) (doc_info : DocMeta) : List RetrievedDoc :=
  match env.doc_map_get doc_info.file_name with
  | some b =>
    if b = "" then localFallbackR env doc_info
    else
      match env.walrus_retrieve b with
      | some content => [{ content := content, file_name := doc_info.file_name,
                           file_path := doc_info.file_path, source := "walrus" }]
      | none => localFallbackR env doc_info
  | none => localFallbackR env doc_info

/-- retriever.py retrieve_documents.  The Python truthiness guard returns
an empty list when any artifact is None or the metadata list is empty; the
hit loop keeps only indices below the metadata length (a signed comparison)
and reads the metadata with Python indexing semantics. -/
def retrieveDocuments {V : Type} (s : RetrieverState V) (env : RetrieverEnv)
    (query : String) (k : Nat) : List RetrievedDoc :=
  match s.index, s.vectorizer, s.document_metadata with
  | some idx, some vec, some metadata =>
    if metadata.isEmpty then []
    else
      (idx.search (vec query) k).foldl (fun acc i =>
        if i < (metadata.length : Int) then
          match pyGet metadata i with
          | some doc_info => acc ++ resolveContent env doc_info
          | none => acc
        else acc) []
  | _, _, _ => []

/-- retrieve_documents never assigns any retriever field, so one call is
the identity on the retriever state paired with the result list. -/
def retrieveDocumentsRun {V : Type} (s : RetrieverState V) (env : RetrieverEnv)
    (query : String) (k : Nat) : List RetrievedDoc × RetrieverState V :=
  (retrieveDocuments s env query k, s)

/-- Specification-side resolution for one hit, following the words of the
spec: look up the blob id of the document in the Document Map; if present,
attempt remote retrieval; on any failure fall back to reading the local
file path recorded in the metadata record; if neither source yields
content, the result is skipped. -/
def resolveContentSpec (env : RetrieverEnv) (d : DocMeta) : List RetrievedDoc :=
  match env.doc_map_get d.file_name with
  | some b =>
    match env.walrus_retrieve b with
    | some content => [{ content := content, file_name := d.file_name,
                         file_path := d.file_path, source := "walrus" }]
    | none => localFallbackR env d
  | none => localFallbackR env d

/-- Specification-side query path: keep the returned search indices that
pass the metadata-length guard, resolve each hit in order and concatenate
the per-hit results. -/
def retrieveDocumentsSpec {V : Type} (s : RetrieverState V) (env : RetrieverEnv)
    (query : String) (k : Nat) : List RetrievedDoc :=
  match s.index, s.vectorizer, s.document_metadata with
  | some idx, some vec, some metadata =>
    ((idx.search (vec query) k).filter
        (fun i => decide (i < (metadata.length : Int)))).flatMap
      (fun i =>
        match pyGet metadata i with
        | some d => resolveContentSpec env d
        | none => [])
  | _, _, _ => []

theorem pyGet_nil {α : Type} (i : Int) : pyGet ([] : List α) i = none := by
  unfold pyGet
  by_cases h : 0 ≤ i
  · simp [h]
  · simp only [if_neg h]
    by_cases h2 : 0 ≤ (0 : Int) + i
    · omega
    · simp [h2]

theorem localFallbackR_length (env : RetrieverEnv) (d : DocMeta) :
    (localFallbackR env d).length ≤ 1 := by
  unfold localFallbackR
  cases env.local_read d.file_path <;> simp

theorem resolveContent_length (env : RetrieverEnv) (d : DocMeta) :
    (resolveContent env d).length ≤ 1 := by
  unfold resolveContent
  cases env.doc_map_get d.file_name with
  | none => exact localFallbackR_length env d
  | some b =>
    by_cases hb : b = ""
    · simpa [hb] using localFallbackR_length env d
    · cases hw : env.walrus_retrieve b with
      | none => simpa [hb, hw] using localFallbackR_length env d
      | some c => simp [hb, hw]

theorem resolveContent_eq_spec (env : RetrieverEnv)
    (hb : ∀ f b, env.doc_map_get f = some b → b ≠ "") (d : DocMeta) :
    resolveContent env d = resolveContentSpec env d := by
  unfold resolveContent resolveContentSpec
  cases hg : env.doc_map_get d.file_name with
  | none => rfl
  | some b =>
    have hbne := hb d.file_name b hg
    simp [hbne]

theorem retrieve_fold_eq (env : RetrieverEnv) (metadata : List DocMeta) (l : List Int) :
    ∀ acc : List RetrievedDoc,
      l.foldl (fun acc i =>
        if i < (metadata.length : Int) then
          match pyGet metadata i with
          | some doc_info => acc ++ resolveContent env doc_info
          | none => acc
        else acc) acc
      = acc ++ (l.filter (fun i => decide (i < (metadata.length : Int)))).flatMap
          (fun i =>
            match pyGet metadata i with
            | some d => resolveContent env d
            | none => []) := by
  induction l with
  | nil => intro acc; simp
  | cons x xs ih =>
    intro acc
    simp only [List.foldl_cons, List.filter_cons]
    by_cases h : x < (metadata.length : Int)
    · rw [if_pos h]
      cases hg : pyGet metadata x with
      | none => simp [h, hg, ih]
      | some d => simp [h, hg, ih]
    · rw [if_neg h]
      simp [h, ih]

theorem flatMap_length_le {α γ : Type} (l : List α) (g : α → List γ)
    (h : ∀ a, (g a).length ≤ 1) : (l.flatMap g).length ≤ l.length := by
  induction l with
  | nil => simp
  | cons x xs ih =>
    simp only [List.flatMap_cons, List.length_append, List.length_cons]
    have := h x
    omega

/-- C2: in every state, retrieve_documents resolves each returned search
index exactly as the spec words it (Document Map lookup, remote attempt,
local fallback, silent skip), never letting a failure escape, and returns
at most k results. -/
theorem claim_C2_resolution_order {V : Type} (s : RetrieverState V) (env : RetrieverEnv)
    (query : String) (k : Nat)
    (hb : ∀ f b, env.doc_map_get f = some b → b ≠ "")
    (hsearch : ∀ idx, s.index = some idx → SearchOk idx) :
    retrieveDocuments s env query k = retrieveDocumentsSpec s env query k ∧
    (retrieveDocuments s env query k).length ≤ k := by
  obtain ⟨oi, ov, om⟩ := s
  cases oi with
  | none => cases ov <;> cases om <;> exact ⟨rfl, by simp [retrieveDocuments]⟩
  | some idx =>
    cases ov with
    | none => cases om <;> exact ⟨rfl, by simp [retrieveDocuments]⟩
    | some vec =>
      cases om with
      | none => exact ⟨rfl, by simp [retrieveDocuments]⟩
      | some metadata =>
        have hse := hsearch idx rfl
        have hlen : (idx.search (vec query) k).length = k := (hse (vec query) k).1
        by_cases hme : metadata.isEmpty = true
        · have hm0 : metadata = [] := List.isEmpty_iff.mp hme
          subst hm0
          constructor
          · simp [retrieveDocuments, retrieveDocumentsSpec, pyGet_nil]
          · simp [retrieveDocuments]
        · have heq : retrieveDocuments
              { index := some idx, vectorizer := some vec, document_metadata := some metadata }
              env query k
            = ((idx.search (vec query) k).filter
                (fun i => decide (i < (metadata.length : Int)))).flatMap
              (fun i =>
                match pyGet metadata i with
                | some d => resolveContent env d
                | none => []) := by
            simp only [retrieveDocuments, if_neg hme]
            rw [retrieve_fold_eq]
            simp
          constructor
          · rw [heq]
            simp only [retrieveDocumentsSpec]
            simp only [resolveContent_eq_spec env hb]
          · rw [heq]
            have h1 : (((idx.search (vec query) k).filter
                (fun i => decide (i < (metadata.length : Int)))).flatMap
                  (fun i =>
                    match pyGet metadata i with
                    | some d => resolveContent env d
                    | none => [])).length
                ≤ ((idx.search (vec query) k).filter
                    (fun i => decide (i < (metadata.length : Int)))).length := by
              apply flatMap_length_le
              intro i
              cases hg : pyGet metadata i with
              | none => simp
              | some d => simpa [hg] using resolveContent_length env d
            have h2 := List.length_filter_le
              (fun i => decide (i < (metadata.length : Int))) (idx.search (vec query) k)
            omega

/-- A flat index holding a single vector; its search returns the stored
position and pads the remaining slots with -1, as FAISS does when k
exceeds the number of stored vectors. -/
def oneVectorIndex : FaissIndex Unit :=
  { ntotal := 1,
    search := fun _ k =>
      (List.range (min k 1)).map Int.ofNat ++ List.replicate (k - min k 1) (-1) }

theorem oneVectorIndex_search_ok : SearchOk oneVectorIndex := by
  intro q k
  constructor
  · simp only [oneVectorIndex, List.length_append, List.length_map, List.length_range,
      List.length_replicate]
    omega
  · intro i hi
    simp only [oneVectorIndex, List.mem_append, List.mem_map, List.mem_range,
      List.mem_replicate] at hi
    rcases hi with ⟨n, hn, rfl⟩ | ⟨hk, rfl⟩
    · left
      have hn1 : n < 1 := lt_of_lt_of_le hn (min_le_right k 1)
      constructor
      · exact Int.ofNat_nonneg n
      · show (Int.ofNat n) < ((oneVectorIndex.ntotal : Nat) : Int)
        have hnt : oneVectorIndex.ntotal = 1 := rfl
        rw [hnt]
        exact Int.ofNat_lt.mpr hn1
    · right
      refine ⟨rfl, ?_⟩
      show oneVectorIndex.ntotal < k
      have : oneVectorIndex.ntotal = 1 := rfl
      rw [this]
      omega

/-- Serving retriever over the one-vector index: one metadata record, a
Document Map mapping every name to a blob, a failing remote tier and a
readable local file. -/
def c2State : RetrieverState Unit :=
  { index := some oneVectorIndex, vectorizer := some (fun _ => ()),
    document_metadata :=
      some [{ file_path := "/data/a.txt", file_name := "a.txt", source := "local" }] }

def c2Env : RetrieverEnv :=
  { doc_map_get := fun _ => some ("blob1"), walrus_retrieve := fun _ => none,
    local_read := fun _ => some ("local content") }

/-- C2 witness: the resolution theorem evaluated on a concrete serving
state whose remote tier fails, exercising the local fallback. -/
theorem claim_C2_witness :
    retrieveDocuments c2State c2Env ("q") 3 = retrieveDocumentsSpec c2State c2Env ("q") 3 ∧
    (retrieveDocuments c2State c2Env ("q") 3).length ≤ 3 := by
  apply claim_C2_resolution_order c2State c2Env ("q") 3
  · intro f b h
    cases h
    decide
  · intro idx h
    obtain rfl : oneVectorIndex = idx := Option.some.inj h
    exact oneVectorIndex_search_ok

/-- C4: when any of the three artifacts is absent after loading, every
query returns the empty list rather than raising. -/
theorem claim_C4_degraded_empty {V : Type} (s : RetrieverState V) (env : RetrieverEnv)
    (query : String) (k : Nat)
    (h : s.index = none ∨ s.vectorizer = none ∨ s.document_metadata = none) :
    retrieveDocuments s env query k = [] := by
  obtain ⟨oi, ov, om⟩ := s
  rcases h with h | h | h
  · subst h
    rfl
  · subst h
    cases oi <;> rfl
  · subst h
    cases oi <;> cases ov <;> rfl

/-- C4 witness: a fully degraded retriever answers with the empty list. -/
theorem claim_C4_witness :
    retrieveDocuments (V := Unit)
      { index := none, vectorizer := none, document_metadata := none }
      { doc_map_get := fun _ => none, walrus_retrieve := fun _ => none,
        local_read := fun _ => none }
      ("anything") 3 = [] :=
  claim_C4_degraded_empty _ _ _ _ (Or.inl rfl)

/-- C8: retrieve_documents writes no retriever field, so a second call with
the same query and k on the state left by the first call yields the same
result list: same length and pointwise the same content, file_name,
file_path and source. -/
theorem claim_C8_deterministic {V : Type} (s : RetrieverState V) (env : RetrieverEnv)
    (query : String) (k : Nat) :
    (retrieveDocumentsRun (retrieveDocumentsRun s env query k).2 env query k).1
      = (retrieveDocumentsRun s env query k).1 ∧
    ((retrieveDocumentsRun (retrieveDocumentsRun s env query k).2 env query k).1).length
      = ((retrieveDocumentsRun s env query k).1).length ∧
    ∀ i : Nat,
      (((retrieveDocumentsRun (retrieveDocumentsRun s env query k).2 env query k).1)[i]?.map
          RetrievedDoc.content
        = ((retrieveDocumentsRun s env query k).1)[i]?.map RetrievedDoc.content) ∧
      (((retrieveDocumentsRun (retrieveDocumentsRun s env query k).2 env query k).1)[i]?.map
          RetrievedDoc.file_name
        = ((retrieveDocumentsRun s env query k).1)[i]?.map RetrievedDoc.file_name) ∧
      (((retrieveDocumentsRun (retrieveDocumentsRun s env query k).2 env query k).1)[i]?.map
          RetrievedDoc.file_path
        = ((retrieveDocumentsRun s env query k).1)[i]?.map RetrievedDoc.file_path) ∧
      (((retrieveDocumentsRun (retrieveDocumentsRun s env query k).2 env query k).1)[i]?.map
          RetrievedDoc.source
        = ((retrieveDocumentsRun s env query k).1)[i]?.map RetrievedDoc.source) :=
  ⟨rfl, rfl, fun _ => ⟨rfl, rfl, rfl, rfl⟩⟩

def c9Meta : DocMeta :=
  { file_path := "/data/a.txt", file_name := "a.txt", source := "local" }

/-- Serving retriever holding exactly one document, no Document Map entry
and a readable local file. -/
def c9State : RetrieverState Unit :=
  { index := some oneVectorIndex, vectorizer := some (fun _ => ()),
    document_metadata := some [c9Meta] }

def c9Env : RetrieverEnv :=
  { doc_map_get := fun _ => none, walrus_retrieve := fun _ => none,
    local_read := fun _ => some ("hello") }

/-- C9 evaluation at the failing input: with one stored vector and k = 2
the search legitimately returns the padding label -1; the guard in
retrieve_documents only checks the upper bound, so -1 slips through,
Python indexing reads the last metadata record, and the padding label
produces a second, duplicate result entry. -/
theorem claim_C9_code_bug_eval :
    SearchOk oneVectorIndex ∧
    oneVectorIndex.search () 2 = [0, -1] ∧
    pyGet [c9Meta] (-1) = some c9Meta ∧
    retrieveDocuments c9State c9Env ("q") 2 =
      [{ content := "hello", file_name := "a.txt", file_path := "/data/a.txt",
         source := "local" },
       { content := "hello", file_name := "a.txt", file_path := "/data/a.txt",
         source := "local" }] :=
  ⟨oneVectorIndex_search_ok, by decide, by decide, by decide⟩

/-! load_artifacts (retriever.py).  Remote retrieval and deserialization
of each artifact either yields the artifact or raises, modelled as an
Option; a local artifact file is missing, readable, or present but failing
to deserialize (which raises out of the local arm). -/

inductive LocalArtifact (α : Type) where
  | missing
  | found (a : α)
  | corrupt
deriving DecidableEq

def LocalArtifact.isCorrupt {α : Type} : LocalArtifact α → Bool
  | .corrupt => true
  | _ => false

def LocalArtifact.toLoaded {α : Type} : LocalArtifact α → Option α
  | .found a => some a
  | _ => none

structure LoadEnv (I W M : Type) where
  blob_ids : List (String × String)
  remote_index : Option I
  remote_vectorizer : Option W
  remote_metadata : Option M
  local_index : LocalArtifact I
  local_vectorizer : LocalArtifact W
  local_metadata : LocalArtifact M

structure ArtifactTriple (I W M : Type) where
  index : Option I
  vectorizer : Option W
  metadata : Option M
deriving DecidableEq

/-- Truthiness of the side-table together with membership of the three
artifact names, as tested on line 51 of retriever.py. -/
def hasAllArtifactKeys (bi : List (String × String)) : Bool :=
  bi.any (fun p => p.1 = "index") && bi.any (fun p => p.1 = "vectorizer")
    && bi.any (fun p => p.1 = "metadata")

/-- The local-disk arm of load_artifacts including the outer exception
handler: a deserialization failure of any artifact raises, after which the
handler clears all three fields; otherwise each artifact comes from its
local file or is set to absent. -/
def loadLocalArtifacts {I W M : Type} (env : LoadEnv I W M) : ArtifactTriple I W M :=
  if env.local_index.isCorrupt || env.local_vectorizer.isCorrupt
      || env.local_metadata.isCorrupt then
    { index := none, vectorizer := none, metadata := none }
  else
    { index := env.local_index.toLoaded, vectorizer := env.local_vectorizer.toLoaded,
      metadata := env.local_metadata.toLoaded }

/-- retriever.py load_artifacts: the remote tier is attempted only when
the side-table is truthy and holds blob ids for all three artifact names;
any failure inside the remote block is caught and the whole local arm
runs, reassigning every field. -/
def load_artifacts {I W M : Type} (env : LoadEnv I W M) : ArtifactTriple I W M :=
  if !env.blob_ids.isEmpty && hasAllArtifactKeys env.blob_ids then
    match env.remote_index, env.remote_vectorizer, env.remote_metadata with
    | some i, some w, some m =>
      { index := some i, vectorizer := some w, metadata := some m }
    | _, _, _ => loadLocalArtifacts env
  else loadLocalArtifacts env

/-- C3: a remote load happens only when the side-table names all three
artifacts; one remote failure abandons the remote attempt wholesale; and
the loaded set is always either the full remote triple or exactly what the
local arm yields, never a mix of tiers. -/
theorem claim_C3_no_mixed_tiers {I W M : Type} (env : LoadEnv I W M) :
    (¬ hasAllArtifactKeys env.blob_ids = true →
      load_artifacts env = loadLocalArtifacts env) ∧
    ((env.remote_index = none ∨ env.remote_vectorizer = none ∨
        env.remote_metadata = none) →
      load_artifacts env = loadLocalArtifacts env) ∧
    ((∃ i w m, env.remote_index = some i ∧ env.remote_vectorizer = some w ∧
        env.remote_metadata = some m ∧
        load_artifacts env =
          { index := some i, vectorizer := some w, metadata := some m }) ∨
      load_artifacts env = loadLocalArtifacts env) := by
  by_cases hc : (!env.blob_ids.isEmpty && hasAllArtifactKeys env.blob_ids) = true
  · cases hI : env.remote_index with
    | none =>
      have hload : load_artifacts env = loadLocalArtifacts env := by
        simp [load_artifacts, hc, hI]
      exact ⟨fun _ => hload, fun _ => hload, Or.inr hload⟩
    | some i =>
      cases hW : env.remote_vectorizer with
      | none =>
        have hload : load_artifacts env = loadLocalArtifacts env := by
          simp [load_artifacts, hc, hI, hW]
        exact ⟨fun _ => hload, fun _ => hload, Or.inr hload⟩
      | some w =>
        cases hM : env.remote_metadata with
        | none =>
          have hload : load_artifacts env = loadLocalArtifacts env := by
            simp [load_artifacts, hc, hI, hW, hM]
          exact ⟨fun _ => hload, fun _ => hload, Or.inr hload⟩
        | some m =>
          have hload : load_artifacts env =
              { index := some i, vectorizer := some w, metadata := some m } := by
            simp [load_artifacts, hc, hI, hW, hM]
          have hkeys : hasAllArtifactKeys env.blob_ids = true := by
            simp only [Bool.and_eq_true] at hc
            exact hc.2
          refine ⟨fun h => absurd hkeys h, ?_, Or.inl ⟨i, w, m, rfl, rfl, rfl, hload⟩⟩
          intro h
          exfalso
          rcases h with h | h | h <;> exact Option.noConfusion h
  · have hload : load_artifacts env = loadLocalArtifacts env := by
      unfold load_artifacts
      rw [if_neg hc]
    exact ⟨fun _ => hload, fun _ => hload, Or.inr hload⟩

/-- Side-table naming all three artifacts, with a failing remote index
retrieval and a partially present local tier. -/
def c3Env : LoadEnv Nat Nat Nat :=
  { blob_ids := [(("index"), ("b1")), (("vectorizer"), ("b2")), (("metadata"), ("b3"))],
    remote_index := none, remote_vectorizer := some 7, remote_metadata := some 9,
    local_index := LocalArtifact.found 1, local_vectorizer := LocalArtifact.found 2,
    local_metadata := LocalArtifact.missing }

/-- C3 witness: with the remote index failing, the whole artifact set comes
from the local arm even though the remote vectorizer and metadata were
retrievable. -/
theorem claim_C3_witness :
    load_artifacts c3Env = loadLocalArtifacts c3Env ∧
    loadLocalArtifacts c3Env =
      { index := some 1, vectorizer := some 2, metadata := none } := by
  refine ⟨(claim_C3_no_mixed_tiers c3Env).2.1 (Or.inl rfl), by decide⟩

/-! Ingester (ingest.py).  load_documents walks the Document Map keys and
then the local data directory; the environment lists the map keys, the
blob lookup, the remote retrieval and the walked local files (content none
when reading raises).  The walrus stores performed for newly found local
files only touch the Document Map, not the two lists the claims are
about. -/

structure LocalFile where
  name : String
  abspath : String
  content : Option String

structure IngestEnv where
  data_dir : String
  map_files : List String
  get_blob : String → Option String
  retrieve : String → Option String
  local_files : List LocalFile

/-- The allow-list of ingest.py line 35. -/
def supportedExtensions : List String := [".py", ".md", ".txt", ".json", ".sol"]

def isSupported (name : String) : Bool :=
  supportedExtensions.any (fun e => pyEndsWith name e)

structure IngestState where
  documents : List String
  document_metadata : List DocMeta
  processed : List String

/-- One iteration of the Walrus phase of load_documents: a supported map
key with a truthy blob id and a successful retrieval appends the content,
the metadata record and the processed mark; any failure skips all
three. -/
def walrusStep (env : IngestEnv) (s : IngestState) (filename : String) : IngestState :=
  if isSupported filename then
    match env.get_blob filename with
    | some b =>
      if b = "" then s
      else
        match env.retrieve b with
        | some content =>
          { documents := s.documents ++ [content],
            document_metadata := s.document_metadata ++
              [{ file_path := env.data_dir ++ "/" ++ filename, file_name := filename,
                 source := "walrus", blob_id := some b }],
            processed := s.processed ++ [filename] }
        | none => s
    | none => s
  else s

/-- One iteration of the local phase of load_documents: a supported file
not already loaded from Walrus whose read succeeds appends the content and
the metadata record (the processed set is not extended here, matching the
code). -/
def localStep (env : IngestEnv) (s : IngestState) (f : LocalFile) : IngestState :=
  if s.processed.contains f.name then s
  else if isSupported f.name then
    match f.content with
    | some content =>
      { documents := s.documents ++ [content],
        document_metadata := s.document_metadata ++
          [{ file_path := f.abspath, file_name := f.name, source := "local",
             blob_id := none }],
        processed := s.processed }
    | none => s
  else s

/-- ingest.py load_documents: the Walrus phase over the map keys followed
by the local phase over the walked files, starting from the empty lists of
the constructor. -/
def load_documents (env : IngestEnv) : IngestState :=
  env.local_files.foldl (localStep env)
    (env.map_files.foldl (walrusStep env)
      { documents := [], document_metadata := [], processed := [] })

/-! Lockstep view of the same loading pass, pairing each appended content
with the metadata record appended in the same iteration; load_documents is
proved equal to its image, which is the alignment invariant. -/

structure PairState where
  pairs : List (String × DocMeta)
  processed : List String

def walrusPairStep (env : IngestEnv) (s : PairState) (filename : String) : PairState :=
  if isSupported filename then
    match env.get_blob filename with
    | some b =>
      if b = "" then s
      else
        match env.retrieve b with
        | some content =>
          { pairs := s.pairs ++
              [(content,
                { file_path := env.data_dir ++ "/" ++ filename, file_name := filename,
                  source := "walrus", blob_id := some b })],
            processed := s.processed ++ [filename] }
        | none => s
    | none => s
  else s

def localPairStep (env : IngestEnv) (s : PairState) (f : LocalFile) : PairState :=
  if s.processed.contains f.name then s
  else if isSupported f.name then
    match f.content with
    | some content =>
      { pairs := s.pairs ++
          [(content,
            { file_path := f.abspath, file_name := f.name, source := "local",
              blob_id := none })],
        processed := s.processed }
    | none => s
  else s

def loadPairs (env : IngestEnv) : PairState :=
  env.local_files.foldl (localPairStep env)
    (env.map_files.foldl (walrusPairStep env) { pairs := [], processed := [] })

def toIngestState (s : PairState) : IngestState :=
  { documents := s.pairs.map Prod.fst, document_metadata := s.pairs.map Prod.snd,
    processed := s.processed }

theorem walrusStep_toIngest (env : IngestEnv) (filename : String) (s : PairState) :
    walrusStep env (toIngestState s) filename
      = toIngestState (walrusPairStep env s filename) := by
  unfold walrusStep walrusPairStep toIngestState
  by_cases h1 : isSupported filename = true
  · simp only [if_pos h1]
    cases hg : env.get_blob filename with
    | none => simp
    | some b =>
      by_cases hb : b = ""
      · simp [hb]
      · cases hr : env.retrieve b with
        | none => simp [hb, hr]
        | some content => simp [hb, hr]
  · simp [h1]

theorem localStep_toIngest (env : IngestEnv) (f : LocalFile) (s : PairState) :
    localStep env (toIngestState s) f = toIngestState (localPairStep env s f) := by
  unfold localStep localPairStep toIngestState
  by_cases h0 : f.name ∈ s.processed
  · simp [h0]
  · by_cases h1 : isSupported f.name = true
    · cases hc : f.content with
      | none => simp [h0, h1, hc]
      | some content => simp [h0, h1, hc]
    · simp [h0, h1]

theorem foldl_walrus_toIngest (env : IngestEnv) (l : List String) :
    ∀ s : PairState,
      l.foldl (walrusStep env) (toIngestState s)
        = toIngestState (l.foldl (walrusPairStep env) s) := by
  induction l with
  | nil => intro s; rfl
  | cons x xs ih =>
    intro s
    simp only [List.foldl_cons]
    rw [walrusStep_toIngest]
    exact ih _

theorem foldl_local_toIngest (env : IngestEnv) (l : List LocalFile) :
    ∀ s : PairState,
      l.foldl (localStep env) (toIngestState s)
        = toIngestState (l.foldl (localPairStep env) s) := by
  induction l with
  | nil => intro s; rfl
  | cons x xs ih =>
    intro s
    simp only [List.foldl_cons]
    rw [localStep_toIngest]
    exact ih _

/-- The two independently appended lists of load_documents are the two
projections of the lockstep pairing. -/
theorem load_documents_eq_pairs (env : IngestEnv) :
    load_documents env = toIngestState (loadPairs env) := by
  unfold load_documents loadPairs
  have h0 : ({ documents := [], document_metadata := [], processed := [] } : IngestState)
      = toIngestState { pairs := [], processed := [] } := rfl
  rw [h0, foldl_walrus_toIngest, foldl_local_toIngest]

/-! create_embeddings (ingest.py) and save_artifacts_to_walrus
(retriever.py).  Disk and remote writes are recorded as an ordered effect
trace; each remote store either returns a blob id or raises, modelled by
an Option in the save environment. -/

inductive IngestEffect where
  | writeLocalIndex
  | writeLocalVectorizer
  | writeLocalMetadata
  | storeRemote (artifact : String) (blob : String)
  | remoteFailure (artifact : String)
  | saveBlobIds
deriving DecidableEq

def IngestEffect.isRemote : IngestEffect → Bool
  | .storeRemote _ _ => true
  | .remoteFailure _ => true
  | .saveBlobIds => true
  | _ => false

structure WalrusSaveEnv where
  store_index : Option String
  store_vectorizer : Option String
  store_metadata : Option String

structure ArtifactsV (V : Type) where
  index : List V
  metadata : List DocMeta
deriving DecidableEq

/-- retriever.py save_artifacts_to_walrus as invoked at the end of
create_embeddings: the guard mirrors the Python truthiness test (the index
and vectorizer are live objects there, so only an empty metadata list can
trip it); the three stores run in order, the first failure is caught and
ends the attempt, and only full success records the side-table. -/
def save_artifacts_to_walrus (metadata : List DocMeta) (wenv : WalrusSaveEnv) :
    List IngestEffect × Bool :=
  if metadata.isEmpty then ([], false)
  else
    match wenv.store_index with
    | none => ([IngestEffect.remoteFailure ("index")], false)
    | some b1 =>
      match wenv.store_vectorizer with
      | none => ([IngestEffect.storeRemote ("index") b1,
                  IngestEffect.remoteFailure ("vectorizer")], false)
      | some b2 =>
        match wenv.store_metadata with
        | none => ([IngestEffect.storeRemote ("index") b1,
                    IngestEffect.storeRemote ("vectorizer") b2,
                    IngestEffect.remoteFailure ("metadata")], false)
        | some b3 => ([IngestEffect.storeRemote ("index") b1,
                       IngestEffect.storeRemote ("vectorizer") b2,
                       IngestEffect.storeRemote ("metadata") b3,
                       IngestEffect.saveBlobIds], true)

/-- ingest.py create_embeddings: with no documents it returns without
writing anything; otherwise it fits the vectorizer and builds one vector
per document (row i of the TF-IDF matrix embeds documents[i], added to the
flat index in order), writes index, vectorizer and metadata to local disk
unconditionally, and only afterwards, when Walrus is in use, attempts the
remote stores inside a try block that converts any failure into a log
line. -/
def create_embeddings (V : Type) (embed : List String → String → V)
    (documents : List String) (document_metadata : List DocMeta)
    (use_walrus : Bool) (wenv : WalrusSaveEnv) :
    List IngestEffect × Option (ArtifactsV V) :=
  if documents.isEmpty then ([], none)
  else
    let index := documents.map (embed documents)
    let localWrites := [IngestEffect.writeLocalIndex, IngestEffect.writeLocalVectorizer,
                        IngestEffect.writeLocalMetadata]
    if use_walrus then
      (localWrites ++ (save_artifacts_to_walrus document_metadata wenv).1,
        some { index := index, metadata := document_metadata })
    else
      (localWrites, some { index := index, metadata := document_metadata })

/-- C5: with documents loaded, create_embeddings emits the three local
artifact writes unconditionally and before any remote effect, returns the
built artifacts whatever the remote tier does, and converts every
remote-store failure into trace entries instead of an exception. -/
theorem claim_C5_local_writes_first (V : Type) (embed : List String → String → V)
    (documents : List String) (document_metadata : List DocMeta) (wenv : WalrusSaveEnv)
    (hne : documents ≠ []) :
    ∃ rest : List IngestEffect,
      create_embeddings V embed documents document_metadata true wenv
        = ([IngestEffect.writeLocalIndex, IngestEffect.writeLocalVectorizer,
            IngestEffect.writeLocalMetadata] ++ rest,
           some { index := documents.map (embed documents),
                  metadata := document_metadata }) ∧
      ∀ e ∈ rest, e.isRemote = true := by
  have hie : documents.isEmpty = false := by
    cases documents with
    | nil => exact absurd rfl hne
    | cons a l => rfl
  refine ⟨(save_artifacts_to_walrus document_metadata wenv).1, ?_, ?_⟩
  · unfold create_embeddings
    rw [hie]
    simp
  · intro e he
    unfold save_artifacts_to_walrus at he
    by_cases hm : document_metadata.isEmpty = true
    · rw [if_pos hm] at he
      simp at he
    · rw [if_neg hm] at he
      cases h1 : wenv.store_index with
      | none =>
        rw [h1] at he
        simp at he
        subst he
        rfl
      | some b1 =>
        rw [h1] at he
        cases h2 : wenv.store_vectorizer with
        | none =>
          rw [h2] at he
          simp at he
          rcases he with he | he <;> subst he <;> rfl
        | some b2 =>
          rw [h2] at he
          cases h3 : wenv.store_metadata with
          | none =>
            rw [h3] at he
            simp at he
            rcases he with he | he | he <;> subst he <;> rfl
          | some b3 =>
            rw [h3] at he
            simp at he
            rcases he with he | he | he | he <;> subst he <;> rfl

def c5Meta : DocMeta :=
  { file_path := "/d/a.txt", file_name := "a.txt", source := "local" }

def c5Wenv : WalrusSaveEnv :=
  { store_index := none, store_vectorizer := none, store_metadata := none }

/-- C5 witness: one document, every remote store failing; the local writes
still happen first and the artifacts are still produced. -/
theorem claim_C5_witness :
    (["apples"] : List String) ≠ [] ∧
    (∃ rest : List IngestEffect,
      create_embeddings Nat (fun _ s => s.length) (["apples"]) ([c5Meta]) true c5Wenv
        = ([IngestEffect.writeLocalIndex, IngestEffect.writeLocalVectorizer,
            IngestEffect.writeLocalMetadata] ++ rest,
           some { index := (["apples"] : List String).map
                    ((fun _ s => s.length) (["apples"] : List String)),
                  metadata := [c5Meta] }) ∧
      ∀ e ∈ rest, e.isRemote = true) :=
  ⟨by decide,
   claim_C5_local_writes_first Nat (fun _ s => s.length) (["apples"]) ([c5Meta]) c5Wenv
     (by decide)⟩

/-- C1: after load_documents, create_embeddings yields an index with one
vector per loaded document and the metadata list of the run: the two have
equal length, the metadata list is the second projection of the lockstep
pairing, and the vector at each position embeds the content appended
together with the metadata record at that position — never reordered. -/
theorem claim_C1_alignment (V : Type) (embed : List String → String → V)
    (env : IngestEnv) (use_walrus : Bool) (wenv : WalrusSaveEnv)
    (hne : (load_documents env).documents ≠ []) :
    ∃ A : ArtifactsV V,
      (create_embeddings V embed (load_documents env).documents
          (load_documents env).document_metadata use_walrus wenv).2 = some A ∧
      A.index.length = A.metadata.length ∧
      A.metadata = (loadPairs env).pairs.map Prod.snd ∧
      A.index = (loadPairs env).pairs.map
        (fun p => embed ((load_documents env).documents) p.1) := by
  have hpairs := load_documents_eq_pairs env
  have hie : (load_documents env).documents.isEmpty = false := by
    cases hd : (load_documents env).documents with
    | nil => exact absurd hd hne
    | cons a l => rfl
  refine ⟨{ index := (load_documents env).documents.map
              (embed ((load_documents env).documents)),
            metadata := (load_documents env).document_metadata }, ?_, ?_, ?_, ?_⟩
  · unfold create_embeddings
    rw [hie]
    cases use_walrus <;> simp
  · simp only [List.length_map]
    rw [hpairs]
    simp [toIngestState]
  · rw [hpairs]
    simp [toIngestState]
  · rw [hpairs]
    simp [toIngestState, List.map_map, Function.comp]

def c1Embed : List String → String → Nat := fun _ s => s.length

/-- One Document Map entry retrievable from Walrus plus one fresh local
file, both of supported types. -/
def c1Env : IngestEnv :=
  { data_dir := "/data",
    map_files := ["w.txt"],
    get_blob := fun _ => some ("blobw"),
    retrieve := fun _ => some ("walrus content"),
    local_files := [{ name := "l.md", abspath := "/data/l.md",
                      content := some ("local content") }] }

def c1Wenv : WalrusSaveEnv :=
  { store_index := some ("i1"), store_vectorizer := some ("v1"),
    store_metadata := some ("m1") }

/-- C1 witness: the alignment theorem evaluated on a run that loads one
document from each tier. -/
theorem claim_C1_witness :
    (load_documents c1Env).documents ≠ [] ∧
    (∃ A : ArtifactsV Nat,
      (create_embeddings Nat c1Embed (load_documents c1Env).documents
          (load_documents c1Env).document_metadata true c1Wenv).2 = some A ∧
      A.index.length = A.metadata.length ∧
      A.metadata = (loadPairs c1Env).pairs.map Prod.snd ∧
      A.index = (loadPairs c1Env).pairs.map
        (fun p => c1Embed ((load_documents c1Env).documents) p.1)) :=
  ⟨by decide, claim_C1_alignment Nat c1Embed c1Env true c1Wenv (by decide)⟩
